import Mathlib

/-!
# Verification of the dtn7 bundle core against its specification

Shallow embedding of the `bundle` package (`bundle.go`, `endpoint.go`) and the
STCP convergence layer of the dtn7 repository. Go machine integers (`uint`,
`uint64`) are modelled as `Nat`; where Go's 64-bit range matters an explicit
`< 2^64` bound appears. Go's `interface{}` values produced by the CBOR codec
library are modelled by the inductive `GoVal`; a run-time panic (failed type
assertion, index out of range, nil dereference, codec failure) is modelled by
the `Except GoPanic` error channel. The external CBOR library's byte
serialization is modelled at the CBOR data-item level: one `GoVal` stands for
one encoded CBOR item, and `WireData` is the input of the top-level decoder
(`.malformed` stands for byte sequences that are not a decodable CBOR item).
-/

namespace DTN7

/-- Generic decoded value, modelling the Go `interface{}` tree the codec
library produces: CBOR unsigned integers decode to `uint64`, text strings to
`string`, byte strings to `[]byte`, arrays to `[]interface{}`, null to `nil`. -/
inductive GoVal where
  | u64 (n : Nat)
  | str (s : String)
  | bytes (bs : List Nat)
  | list (vs : List GoVal)
  | null

/-- A Go run-time panic, as recovered by `recover()`. -/
inductive GoPanic where
  | typeAssertion
  | indexRange
  | nilDeref
  | decodeFailure
deriving DecidableEq

/-- Error value produced by `newBundleError` (bundle.go); carries the message. -/
inductive BundleError where
  | bundleErr (msg : String)
deriving DecidableEq

def newBundleError (msg : String) : BundleError := .bundleErr msg

/-! ## Decimal rendering (`fmt` `%d`) and digit parsing (`strconv.ParseUint`) -/

/-- The ASCII decimal digit character for `d < 10`. -/
def digitChar (d : Nat) : Char :=
  if d = 0 then '0' else if d = 1 then '1' else if d = 2 then '2'
  else if d = 3 then '3' else if d = 4 then '4' else if d = 5 then '5'
  else if d = 6 then '6' else if d = 7 then '7' else if d = 8 then '8'
  else '9'

/-- Digits of `n` in base 10, most significant first, accumulated onto `acc`;
produces `acc` unchanged for `n = 0`. Fuel-based so that it reduces in the
kernel; any `fuel > n` yields the digits of `n`. -/
def natToDigitsCore : Nat → Nat → List Char → List Char
  | 0, _, acc => acc
  | fuel + 1, n, acc =>
    if n = 0 then acc
    else natToDigitsCore fuel (n / 10) (digitChar (n % 10) :: acc)

/-- Canonical decimal digit list of `n`, as Go's `fmt` verb `%d` prints it. -/
def natToDigits (n : Nat) : List Char :=
  if n = 0 then ['0'] else natToDigitsCore (n + 1) n []

/-- Canonical decimal string of `n` (Go `%d`). -/
def natToStr (n : Nat) : String := String.mk (natToDigits n)

/-- Numeric value of a decimal digit list, as `strconv.ParseUint` computes it
on an all-digit string. -/
def digitsToNat (l : List Char) : Nat :=
  l.foldl (fun a c => a * 10 + (c.toNat - 48)) 0

/-! ## EndpointID (endpoint.go) -/

def endpointURISchemeDTN : Nat := 1
def endpointURISchemeIPN : Nat := 2

/-- The dynamic type of the Go `interface{}` field `SchemeSpecificPart`:
`uint`, `string`, `[2]uint64`, or the nil interface (Go zero value). -/
inductive SSPVal where
  | uintVal (n : Nat)
  | strVal (s : String)
  | ipnPair (a b : Nat)
  | nilVal
deriving DecidableEq

/-- `EndpointID` (endpoint.go): scheme name plus untyped scheme-specific part. -/
structure EndpointID where
  SchemeName : Nat
  SchemeSpecificPart : SSPVal
deriving DecidableEq

/-- `DtnNone()` (endpoint.go): the null endpoint `dtn:none`. -/
def DtnNone : EndpointID := ⟨endpointURISchemeDTN, .uintVal 0⟩

/-- Split a character list at the first occurrence of `sep`; `none` when `sep`
does not occur. Models the anchored regexes of endpoint.go, whose separators
(`:` after `[[:alnum:]]+`, `.` after `\d+`) cannot occur in the first group. -/
def splitAtFirst (sep : Char) : List Char → Option (List Char × List Char)
  | [] => none
  | c :: rest =>
    if c = sep then some ([], rest)
    else (splitAtFirst sep rest).map (fun p => (c :: p.1, p.2))

/-- Go `[[:alnum:]]` (ASCII letters and digits). -/
def isAlnum (c : Char) : Bool := c.isAlpha || c.isDigit

/-- `newEndpointIDDTN` (endpoint.go): SSP `"none"` becomes the `uint 0` null
marker, any other SSP stays an opaque string. -/
def newEndpointIDDTN (ssp : List Char) : Except BundleError EndpointID :=
  if ssp = "none".data then .ok ⟨endpointURISchemeDTN, .uintVal 0⟩
  else .ok ⟨endpointURISchemeDTN, .strVal (String.mk ssp)⟩

/-- `newEndpointIDIPN` (endpoint.go): SSP must match `^(\d+)\.(\d+)$`, both
components parse as unsigned 64-bit (`strconv.ParseUint(_, 10, 64)`) and must
be at least 1. -/
def newEndpointIDIPN (ssp : List Char) : Except BundleError EndpointID :=
  match splitAtFirst '.' ssp with
  | none => .error (newBundleError "IPN does not satisfy given regex")
  | some (d1, d2) =>
    if d1 ≠ [] ∧ d1.all Char.isDigit ∧ d2 ≠ [] ∧ d2.all Char.isDigit then
      if digitsToNat d1 ≥ 2 ^ 64 then
        .error (newBundleError "strconv.ParseUint: value out of range")
      else if digitsToNat d2 ≥ 2 ^ 64 then
        .error (newBundleError "strconv.ParseUint: value out of range")
      else if digitsToNat d1 < 1 ∨ digitsToNat d2 < 1 then
        .error (newBundleError "IPN's node and service number must be >= 1")
      else .ok ⟨endpointURISchemeIPN, .ipnPair (digitsToNat d1) (digitsToNat d2)⟩
    else .error (newBundleError "IPN does not satisfy given regex")

/-- `NewEndpointID` (endpoint.go): the input must match
`^([[:alnum:]]+):(.+)$` (in Go's RE2, `.` does not match a newline), then the
scheme name selects the `dtn` or `ipn` constructor. -/
def NewEndpointID (eid : String) : Except BundleError EndpointID :=
  match splitAtFirst ':' eid.data with
  | none => .error (newBundleError "eid does not satisfy regex")
  | some (name, ssp) =>
    if name ≠ [] ∧ name.all isAlnum ∧ ssp ≠ [] ∧ ssp.all (fun c => c ≠ '\n') then
      if String.mk name = "dtn" then newEndpointIDDTN ssp
      else if String.mk name = "ipn" then newEndpointIDIPN ssp
      else .error (newBundleError "Unknown scheme type")
    else .error (newBundleError "eid does not satisfy regex")

/-- `EndpointID.String` (endpoint.go), the inverse rendering. The branches for
unknown schemes and mismatched shapes follow the source's `default`/fallback
`fmt.Fprintf` cases. -/
def EndpointID.render (eid : EndpointID) : String :=
  let scheme :=
    if eid.SchemeName = endpointURISchemeDTN then "dtn"
    else if eid.SchemeName = endpointURISchemeIPN then "ipn"
    else "unknown_" ++ natToStr eid.SchemeName
  let ssp :=
    match eid.SchemeSpecificPart with
    | .uintVal n =>
      if eid.SchemeName = endpointURISchemeDTN ∧ n = 0 then "none" else natToStr n
    | .strVal s => s
    | .ipnPair a b =>
      if eid.SchemeName = endpointURISchemeIPN then natToStr a ++ "." ++ natToStr b
      else "[" ++ natToStr a ++ " " ++ natToStr b ++ "]"
    | .nilVal => "<nil>"
  scheme ++ ":" ++ ssp

/-- Error for a `dtn` EID whose SSP is the string `"none"` (endpoint.go). -/
def eidNoneStrError : BundleError :=
  newBundleError "EndpointID: equals dtn:none, with none as a string"

/-- Error for an `ipn` EID whose node or service number is zero (endpoint.go). -/
def eidIpnRangeError : BundleError :=
  newBundleError "EndpointID: IPN's node and service number must be >= 1"

/-- Error for an EID with an unknown scheme name (endpoint.go). -/
def eidUnknownSchemeError : BundleError :=
  newBundleError "EndpointID: unknown scheme name"

/-- `EndpointID.checkValidDtn` (endpoint.go): only the string `"none"` is
rejected; any other dynamic type falls through the type switch. -/
def EndpointID.checkValidDtn (eid : EndpointID) : Option BundleError :=
  match eid.SchemeSpecificPart with
  | .strVal s => if s = "none" then some eidNoneStrError else none
  | _ => none

/-- `EndpointID.checkValidIpn` (endpoint.go): the unchecked type assertion
`.([2]uint64)` panics when the SSP has another dynamic type. -/
def EndpointID.checkValidIpn (eid : EndpointID) : Except GoPanic (Option BundleError) :=
  match eid.SchemeSpecificPart with
  | .ipnPair a b => .ok (if a < 1 ∨ b < 1 then some eidIpnRangeError else none)
  | _ => .error .typeAssertion

/-- `EndpointID.checkValid` (endpoint.go). -/
def EndpointID.checkValid (eid : EndpointID) : Except GoPanic (Option BundleError) :=
  if eid.SchemeName = endpointURISchemeDTN then .ok eid.checkValidDtn
  else if eid.SchemeName = endpointURISchemeIPN then eid.checkValidIpn
  else .ok (some eidUnknownSchemeError)

/-- `setEndpointIDFromCborArray` (endpoint.go): copies the scheme tag and the
raw scheme-specific value, then re-casts by the *observed run-time type* only:
`uint64` becomes `uint`, a slice is cast to `[2]uint64` (panicking on short
slices or non-`uint64` elements), a string stays as-is; a `[]byte` value has
reflect kind `Slice`, so its `.([]interface{})` assertion panics; `nil` makes
`reflect.TypeOf(...).Kind()` dereference a nil `Type`. The scheme tag is never
consulted. -/
def setEndpointIDFromCborArray (arr : List GoVal) : Except GoPanic EndpointID :=
  match arr with
  | [] => .error .indexRange
  | a0 :: rest =>
    match a0 with
    | .u64 scheme =>
      match rest with
      | [] => .error .indexRange
      | a1 :: _ =>
        match a1 with
        | .u64 m => .ok ⟨scheme, .uintVal m⟩
        | .str s => .ok ⟨scheme, .strVal s⟩
        | .list [] => .error .indexRange
        | .list [x] =>
          match x with
          | .u64 _ => .error .indexRange
          | _ => .error .typeAssertion
        | .list (x :: y :: _) =>
          match x, y with
          | .u64 xa, .u64 yb => .ok ⟨scheme, .ipnPair xa yb⟩
          | _, _ => .error .typeAssertion
        | .bytes _ => .error .typeAssertion
        | .null => .error .nilDeref
    | _ => .error .typeAssertion

/-- `EndpointID.CodecDecodeSelf` (endpoint.go): decode one CBOR item into
`[]interface{}` (panicking if the item is not an array), then reinterpret. -/
def EndpointID.codecDecodeSelf (v : GoVal) : Except GoPanic EndpointID :=
  match v with
  | .list vs => setEndpointIDFromCborArray vs
  | _ => .error .decodeFailure

/-- Wire shape of a scheme-specific part (`EndpointID.CodecEncodeSelf`). -/
def SSPVal.encode : SSPVal → GoVal
  | .uintVal n => .u64 n
  | .strVal s => .str s
  | .ipnPair a b => .list [.u64 a, .u64 b]
  | .nilVal => .null

/-- `EndpointID.CodecEncodeSelf` (endpoint.go): a two-element array of scheme
tag and scheme-specific value. -/
def EndpointID.codecEncodeSelf (eid : EndpointID) : GoVal :=
  .list [.u64 eid.SchemeName, eid.SchemeSpecificPart.encode]

/-! ## Blocks

The block structures, their flag and type constants, and the CRC internals are
part of this repository but not of the excerpt; only `bundle.go`'s calls into
them are. They are modelled from the spec (§3, §4.2, §6). -/

/-- Modelled from the spec (§3, §6): the primary block's fields in wire order.
The concrete Go definition is not in the excerpt. -/
structure PrimaryBlock where
  Version : Nat
  BundleControlFlags : Nat
  CRCType : Nat
  Destination : EndpointID
  SourceNode : EndpointID
  ReportTo : EndpointID
  CreationTimestamp : Nat × Nat
  Lifetime : Nat
  FragmentOffset : Nat
  TotalDataLength : Nat
  CRC : List Nat
deriving DecidableEq

/-- Modelled from the spec (§3, §6): a canonical block; the type-specific
payload is kept as the opaque CBOR value it encodes to (§3: an unknown block
"must preserve its raw payload bytes unmodified"). -/
structure CanonicalBlock where
  BlockType : Nat
  BlockNumber : Nat
  BlockControlFlags : Nat
  CRCType : Nat
  Data : GoVal
  CRC : List Nat

/-- `Bundle` (bundle.go): one primary block and the canonical blocks in order. -/
structure Bundle where
  PrimaryBlock : PrimaryBlock
  CanonicalBlocks : List CanonicalBlock

/-- Modelled from the spec: bundle processing control flag "is fragment". -/
def IsFragment : Nat := 1
/-- Modelled from the spec: bundle processing control flag
"administrative-record payload". -/
def AdministrativeRecordPayload : Nat := 2
/-- Modelled from the spec: block processing control flag "transmit status
report if block cannot be processed". -/
def StatusReportBlock : Nat := 2
/-- Modelled from the spec: canonical block type codes. Their exact numeric
values are not in the excerpt; only their distinctness matters here. -/
def PayloadBlock : Nat := 1
def PreviousNodeBlock : Nat := 7
def BundleAgeBlock : Nat := 8
def HopCountBlock : Nat := 9

/-- `BundleControlFlags.Has` / `BlockControlFlags.Has`: bitset membership. -/
def hasFlag (flags flag : Nat) : Bool := flags &&& flag != 0

/-! ## Wire codec (modelled at the CBOR data-item level)

The external codec library's byte serialization is modelled one level up: a
`GoVal` stands for one CBOR data item. `decodeBundleBlock` (bundle.go), which
re-encodes a generic item and decodes it into the typed block, is therefore
the direct interpretation of a `GoVal` as a block, with `MustDecode` failures
as panics. -/

/-- Modelled from the spec (§6): the primary block's encoded field sequence —
version, flags, CRC mode, the three EIDs, creation timestamp pair, lifetime,
fragment fields only when the fragment flag is set, CRC value only when the
CRC mode is not "none". -/
def encodePrimaryBlock (pb : PrimaryBlock) : GoVal :=
  .list ([.u64 pb.Version, .u64 pb.BundleControlFlags, .u64 pb.CRCType,
          pb.Destination.codecEncodeSelf, pb.SourceNode.codecEncodeSelf,
          pb.ReportTo.codecEncodeSelf,
          .list [.u64 pb.CreationTimestamp.1, .u64 pb.CreationTimestamp.2],
          .u64 pb.Lifetime]
    ++ (if hasFlag pb.BundleControlFlags IsFragment then
          [.u64 pb.FragmentOffset, .u64 pb.TotalDataLength] else [])
    ++ (if pb.CRCType ≠ 0 then [.bytes pb.CRC] else []))

/-- Modelled from the spec (§6): the canonical block's encoded field sequence —
type, number, flags, CRC mode, payload, CRC value only when the mode is not
"none". -/
def encodeCanonicalBlock (cb : CanonicalBlock) : GoVal :=
  .list ([.u64 cb.BlockType, .u64 cb.BlockNumber, .u64 cb.BlockControlFlags,
          .u64 cb.CRCType, cb.Data]
    ++ (if cb.CRCType ≠ 0 then [.bytes cb.CRC] else []))

/-- Modelled from the spec (§4.3, §6): decoding a generic item into a
`PrimaryBlock` (the typed half of `decodeBundleBlock`). EIDs go through
`EndpointID.CodecDecodeSelf`; any shape mismatch is a codec failure, which
`MustDecode` turns into a panic. -/
def decodePrimaryBlock (v : GoVal) : Except GoPanic PrimaryBlock :=
  match v with
  | .list (.u64 ver :: .u64 flags :: .u64 ct :: d :: s :: r ::
           .list [.u64 t0, .u64 t1] :: .u64 lt :: rest) => do
    let dest ← EndpointID.codecDecodeSelf d
    let src ← EndpointID.codecDecodeSelf s
    let rpt ← EndpointID.codecDecodeSelf r
    let fragAndRest ←
      if hasFlag flags IsFragment then
        match rest with
        | .u64 fo :: .u64 tl :: rest2 => Except.ok ((fo, tl), rest2)
        | _ => Except.error GoPanic.decodeFailure
      else Except.ok ((0, 0), rest)
    let crc ←
      if ct ≠ 0 then
        match fragAndRest.2 with
        | [.bytes cs] => Except.ok cs
        | _ => Except.error GoPanic.decodeFailure
      else
        match fragAndRest.2 with
        | [] => Except.ok ([] : List Nat)
        | _ => Except.error GoPanic.decodeFailure
    .ok ⟨ver, flags, ct, dest, src, rpt, (t0, t1), lt,
         fragAndRest.1.1, fragAndRest.1.2, crc⟩
  | _ => .error .decodeFailure

/-- Modelled from the spec (§4.3, §6): decoding a generic item into a
`CanonicalBlock`. -/
def decodeCanonicalBlock (v : GoVal) : Except GoPanic CanonicalBlock :=
  match v with
  | .list (.u64 bt :: .u64 bn :: .u64 fl :: .u64 ct :: d :: rest) =>
    if ct ≠ 0 then
      match rest with
      | [.bytes cs] => .ok ⟨bt, bn, fl, ct, d, cs⟩
      | _ => .error .decodeFailure
    else
      match rest with
      | [] => .ok ⟨bt, bn, fl, ct, d, []⟩
      | _ => .error .decodeFailure
  | _ => .error .decodeFailure

/-! ## CRC (integrity) model -/

/-- Modelled from the spec (§3, §4.2): the neutral/zero value of the integrity
field for each mode — two zero bytes for the 16-bit mode, four for 32-bit,
absent for "none". -/
def neutralCRC (ct : Nat) : List Nat :=
  if ct = 1 then [0, 0] else if ct = 2 then [0, 0, 0, 0] else []

mutual

/-- Flattening of a CBOR item to a number sequence, used as the checksum
input; tags keep the constructors apart. -/
def goValFlat : GoVal → List Nat
  | .u64 n => [0, n]
  | .str s => 1 :: s.length :: s.data.map Char.toNat
  | .bytes bs => 2 :: bs.length :: bs
  | .list vs => 3 :: vs.length :: (goValFlatList vs ++ [5])
  | .null => [4]

/-- Flattening of an item list (companion of `goValFlat`). -/
def goValFlatList : List GoVal → List Nat
  | [] => []
  | v :: vs => goValFlat v ++ goValFlatList vs

end

/-- Modelled from the spec (§4.2): the checksum over the serialized block. The
excerpt does not contain the CRC-16/CRC-32 implementations; a concrete
deterministic stand-in of the right width is used — the claims under proof
depend only on the checksum being a deterministic function of the serialized
bytes. -/
def checksumOf (ct : Nat) (v : GoVal) : List Nat :=
  let h := (goValFlat v).foldl (fun a x => (a * 1000003 + x + 1) % 4294967296) 0
  if ct = 1 then [h % 256, h / 256 % 256]
  else if ct = 2 then [h % 256, h / 256 % 256, h / 65536 % 256, h / 16777216 % 256]
  else []

/-- Modelled from the spec (§4.2): recompute the primary block's integrity
value — serialize with the integrity field at its neutral value, checksum,
store. -/
def calculateCRCPrimary (pb : PrimaryBlock) : PrimaryBlock :=
  let c := checksumOf pb.CRCType (encodePrimaryBlock { pb with CRC := neutralCRC pb.CRCType })
  { pb with CRC := c }

/-- Modelled from the spec (§4.2): check the primary block's integrity value
against the recomputed one; mode "none" always passes. -/
def checkCRCPrimary (pb : PrimaryBlock) : Bool :=
  if pb.CRCType = 0 then true
  else
    let c := checksumOf pb.CRCType (encodePrimaryBlock { pb with CRC := neutralCRC pb.CRCType })
    pb.CRC = c

/-- Modelled from the spec (§4.2): recompute a canonical block's integrity
value. -/
def calculateCRCCanonical (cb : CanonicalBlock) : CanonicalBlock :=
  let c := checksumOf cb.CRCType (encodeCanonicalBlock { cb with CRC := neutralCRC cb.CRCType })
  { cb with CRC := c }

/-- Modelled from the spec (§4.2): check a canonical block's integrity value. -/
def checkCRCCanonical (cb : CanonicalBlock) : Bool :=
  if cb.CRCType = 0 then true
  else
    let c := checksumOf cb.CRCType (encodeCanonicalBlock { cb with CRC := neutralCRC cb.CRCType })
    cb.CRC = c

/-- Modelled from the spec (§9) and the source comment on `Bundle.CheckCRC`
(bundle.go: "This method changes the block's CRC value temporary and is not
thread safe"): the states of the shared block observable while its integrity
is being checked — the original state, the state with the integrity field
overwritten by its neutral value while the checksum is recomputed, and the
restored original. Mode "none" returns early without touching the block. -/
def checkCRCCanonicalTrace (cb : CanonicalBlock) : List CanonicalBlock :=
  if cb.CRCType = 0 then [cb]
  else [cb, { cb with CRC := neutralCRC cb.CRCType }, cb]

/-- `Bundle.CalculateCRC` (bundle.go): recompute every block's CRC value. -/
def Bundle.CalculateCRC (b : Bundle) : Bundle :=
  ⟨calculateCRCPrimary b.PrimaryBlock, b.CanonicalBlocks.map calculateCRCCanonical⟩

/-- `Bundle.CheckCRC` (bundle.go): true iff every block's CRC value matches. -/
def Bundle.CheckCRC (b : Bundle) : Bool :=
  checkCRCPrimary b.PrimaryBlock && b.CanonicalBlocks.all checkCRCCanonical

/-! ## Validation -/

/-- Modelled from the spec (§4.2: "each block validates its own
scheme-specific constraints, e.g. an `ipn` EID field must itself satisfy
node/service ≥ 1"): the primary block's per-block check validates its three
EID fields; `EndpointID.checkValid`'s unchecked type assertion can panic. -/
def PrimaryBlock.checkValidE (pb : PrimaryBlock) : Except GoPanic (List BundleError) := do
  let e1 ← pb.Destination.checkValid
  let e2 ← pb.SourceNode.checkValid
  let e3 ← pb.ReportTo.checkValid
  .ok (e1.toList ++ e2.toList ++ e3.toList)

/-- Modelled from the spec: the excerpt states no canonical-block-specific
per-block constraint, so the canonical per-block check reports nothing. -/
def CanonicalBlock.checkValidE (_cb : CanonicalBlock) : Except GoPanic (List BundleError) :=
  .ok []

/-- The canonical-block half of the `forEachBlock` loop in `Bundle.checkValid`
(bundle.go): run every canonical block's per-block check in order, appending
the violations. -/
def canonicalsCheckE : List CanonicalBlock → Except GoPanic (List BundleError)
  | [] => .ok []
  | cb :: rest => do
    let e ← cb.checkValidE
    let es ← canonicalsCheckE rest
    .ok (e ++ es)

/-- The status-report violation message (bundle.go, `Bundle.checkValid`). -/
def statusReportError : BundleError :=
  newBundleError ("Bundle: Bundle Processing Control Flags indicate that " ++
    "this bundle's payload is an administrative record or the source " ++
    "node is omitted, but the \"Transmit status report if block canot " ++
    "be processed\" Block Processing Control Flag was set in a " ++
    "Canonical Block")

/-- The duplicate-block-number violation for number `n` (bundle.go). -/
def dupNumberError (n : Nat) : BundleError :=
  newBundleError ("Bundle: Block number " ++ natToStr n ++ " occurred multiple times")

/-- The duplicate-block-type violation for type `t` (bundle.go). -/
def dupTypeError (t : Nat) : BundleError :=
  newBundleError ("Bundle: Block type " ++ natToStr t ++ " occurred multiple times")

/-- The missing-BundleAge violation message (bundle.go). -/
def missingAgeError : BundleError :=
  newBundleError "Bundle: Creation Timestamp is zero, but no Bundle Age block is present"

/-- Whether `Bundle.checkValid` tracks this block type in its at-most-once
set (bundle.go, the `switch cb.BlockType` over PreviousNode, BundleAge and
HopCount). -/
def restrictedType (t : Nat) : Prop :=
  t = PreviousNodeBlock ∨ t = BundleAgeBlock ∨ t = HopCountBlock

instance (t : Nat) : Decidable (restrictedType t) := by
  unfold restrictedType; infer_instance

/-- The uniqueness/cardinality loop of `Bundle.checkValid` (bundle.go):
walks the canonical blocks once, carrying the sets of seen block numbers
(`cbBlockNumbers`) and seen restricted block types (`cbBlockTypes`), emitting
a duplicate-number violation and — for PreviousNode, BundleAge and HopCount —
a duplicate-type violation at every repeated occurrence. Returns the
violations in iteration order and the final set of seen restricted types. -/
def dupScan : List CanonicalBlock → List Nat → List Nat → List BundleError × List Nat
  | [], _, ts => ([], ts)
  | cb :: rest, ns, ts =>
    let r := dupScan rest (cb.BlockNumber :: ns)
      (if restrictedType cb.BlockType then cb.BlockType :: ts else ts)
    ((if cb.BlockNumber ∈ ns then [dupNumberError cb.BlockNumber] else []) ++
     (if restrictedType cb.BlockType ∧ cb.BlockType ∈ ts then
        [dupTypeError cb.BlockType] else []) ++ r.1,
     r.2)

/-- The administrative-record/null-source condition of `Bundle.checkValid`
(bundle.go, lines 121–122). -/
def statusReportForbidden (b : Bundle) : Prop :=
  hasFlag b.PrimaryBlock.BundleControlFlags AdministrativeRecordPayload = true ∨
    b.PrimaryBlock.SourceNode = DtnNone

instance (b : Bundle) : Decidable (statusReportForbidden b) := by
  unfold statusReportForbidden; infer_instance

/-- The status-report violations of `Bundle.checkValid` (bundle.go): one per
canonical block whose flags request a status report, when the bundle carries
an administrative record or has the null source. -/
def bundleStatusErrs (b : Bundle) : List BundleError :=
  if statusReportForbidden b then
    (b.CanonicalBlocks.filter
      (fun cb => hasFlag cb.BlockControlFlags StatusReportBlock)).map
      (fun _ => statusReportError)
  else []

/-- The zero-timestamp/BundleAge violation of `Bundle.checkValid` (bundle.go),
read off the restricted-type set the uniqueness loop collected. -/
def bundleAgeErrs (b : Bundle) : List BundleError :=
  if b.PrimaryBlock.CreationTimestamp.1 = 0 ∧
      BundleAgeBlock ∉ (dupScan b.CanonicalBlocks [] []).2 then
    [missingAgeError]
  else []

/-- `Bundle.checkValid` (bundle.go): per-block checks over every block first,
then the administrative-record/null-source versus status-report-flag check,
then the uniqueness/cardinality loop, then the zero-timestamp/BundleAge
check; every violation is appended to one `multierror` aggregate, modelled as
the returned list. A panic in a per-block check escapes (there is no recover
here). -/
def Bundle.checkValidE (b : Bundle) : Except GoPanic (List BundleError) := do
  let pbErrs ← b.PrimaryBlock.checkValidE
  let cbErrs ← canonicalsCheckE b.CanonicalBlocks
  .ok (pbErrs ++ cbErrs ++ bundleStatusErrs b ++
    (dupScan b.CanonicalBlocks [] []).1 ++ bundleAgeErrs b)

/-- `NewBundle` (bundle.go): build the bundle and validate it; per-block
panics are not recovered here. -/
def NewBundle (primary : PrimaryBlock) (canonicals : List CanonicalBlock) :
    Except GoPanic (Bundle × List BundleError) :=
  (Bundle.checkValidE ⟨primary, canonicals⟩).map (fun errs => (⟨primary, canonicals⟩, errs))

/-! ## Bundle wire encoding and decoding -/

/-- The top-level wire input of `NewBundleFromCbor`, at the data-item level:
either one decodable CBOR item or a byte sequence that is not one. -/
inductive WireData where
  | item (v : GoVal)
  | malformed

/-- `Bundle.ToCbor` (bundle.go): the indefinite-length CBOR array — start
marker, the primary block's encoding, each canonical block's encoding in
order, break marker — modelled as the corresponding array item. -/
def Bundle.ToCbor (b : Bundle) : WireData :=
  .item (.list (encodePrimaryBlock b.PrimaryBlock ::
    b.CanonicalBlocks.map encodeCanonicalBlock))

/-- The Go zero value of `Bundle`: what `NewBundleFromCbor`'s named return
still holds when a panic occurs before `b` is assigned. -/
def emptyBundle : Bundle :=
  ⟨⟨0, 0, 0, ⟨0, .nilVal⟩, ⟨0, .nilVal⟩, ⟨0, .nilVal⟩, (0, 0), 0, 0, 0, []⟩, []⟩

/-- The canonical-block decode loop of `NewBundleFromCbor` (bundle.go): decode
each remaining element in order, stopping at the first panic. -/
def decodeCanonicals : List GoVal → Except GoPanic (List CanonicalBlock)
  | [] => .ok []
  | v :: rest => do
    let cb ← decodeCanonicalBlock v
    let cbs ← decodeCanonicals rest
    .ok (cb :: cbs)

/-- The structural decode of `NewBundleFromCbor` (bundle.go): decode the input
into `[]interface{}` (panicking when it is not an array), take element 0 as
the primary block (an index panic when the array is empty), and the remaining
elements as canonical blocks. -/
def decodeStage (d : WireData) : Except GoPanic Bundle :=
  match d with
  | .malformed => .error .decodeFailure
  | .item v =>
    match v with
    | .list [] => .error .indexRange
    | .list (pv :: cvs) => do
      let pb ← decodePrimaryBlock pv
      let cbs ← decodeCanonicals cvs
      .ok ⟨pb, cbs⟩
    | _ => .error .decodeFailure

/-- The message `recover` formats into the returned error
(`"Bundle: Decoding CBOR failed, %v"`). -/
def panicMsg : GoPanic → String
  | .typeAssertion => "interface conversion"
  | .indexRange => "runtime error: index out of range"
  | .nilDeref => "runtime error: invalid memory address or nil pointer dereference"
  | .decodeFailure => "cbor decode error"

def decodePanicError (p : GoPanic) : BundleError :=
  newBundleError ("Bundle: Decoding CBOR failed, " ++ panicMsg p)

/-- `NewBundleFromCbor` (bundle.go): structural decode, then validation, then
the CRC check; every panic raised on the way — by the decode itself or by a
per-block validation check — is recovered into an error result. The error
channel is a list; `[]` models the nil error. -/
def NewBundleFromCbor (d : WireData) : Bundle × List BundleError :=
  match decodeStage d with
  | .error p => (emptyBundle, [decodePanicError p])
  | .ok b =>
    match b.checkValidE with
    | .error p => (b, [decodePanicError p])
    | .ok errs =>
      (b, if b.CheckCRC then errs else errs ++ [newBundleError "CRC failed"])

/-! ## Predicates used by the claims -/

/-- An `EndpointID` of the shapes the spec's data model (§3) can express: the
scheme-specific part is a number, a string or a number pair — not the Go nil
interface of an uninitialized struct. Every EID produced by text parsing or
wire decoding has this shape. -/
def EndpointID.wfShape (e : EndpointID) : Prop := e.SchemeSpecificPart ≠ SSPVal.nilVal

/-- A structurally well-formed bundle (spec §3): its EIDs have expressible
shapes, and the fragment fields are zero unless the fragment flag is set
(§3: those fields exist "only when the is-fragment flag is set"). -/
def WFBundle (b : Bundle) : Prop :=
  b.PrimaryBlock.Destination.wfShape ∧ b.PrimaryBlock.SourceNode.wfShape ∧
  b.PrimaryBlock.ReportTo.wfShape ∧
  (hasFlag b.PrimaryBlock.BundleControlFlags IsFragment = false →
    b.PrimaryBlock.FragmentOffset = 0 ∧ b.PrimaryBlock.TotalDataLength = 0)

instance (b : Bundle) : Decidable (WFBundle b) := by
  unfold WFBundle EndpointID.wfShape; infer_instance

/-- Valid EID text exactly as the claim words it (spec §6 text syntax):
scheme `dtn` with SSP `none` or an opaque string, or scheme `ipn` with SSP
`digits.digits`, both values at least 1. An opaque-string SSP is nonempty and
newline-free (the spec's `scheme ":" scheme-specific-part` syntax has no
escape for a line break). -/
def ValidEIDTextClaim (T : String) : Prop :=
  (∃ s : String, T = "dtn:" ++ s ∧ s.data ≠ [] ∧ ∀ c ∈ s.data, c ≠ '\n') ∨
  (∃ d1 d2 : List Char, T = "ipn:" ++ String.mk d1 ++ "." ++ String.mk d2 ∧
    d1 ≠ [] ∧ d1.all Char.isDigit = true ∧ d2 ≠ [] ∧ d2.all Char.isDigit = true ∧
    1 ≤ digitsToNat d1 ∧ 1 ≤ digitsToNat d2)

/-- Valid EID text with the `ipn` components written canonically: no leading
zeros (each component is `natToStr` of its value) and both values inside the
unsigned 64-bit range. -/
def ValidEIDTextCanonical (T : String) : Prop :=
  (∃ s : String, T = "dtn:" ++ s ∧ s.data ≠ [] ∧ ∀ c ∈ s.data, c ≠ '\n') ∨
  (∃ n sv : Nat, 1 ≤ n ∧ n < 2 ^ 64 ∧ 1 ≤ sv ∧ sv < 2 ^ 64 ∧
    T = "ipn:" ++ natToStr n ++ "." ++ natToStr sv)

/-! ## Concrete inputs used by witnesses and counterexamples -/

/-- A concrete valid primary block: version 7, no flags, 16-bit CRC mode,
timestamp (1, 0) so no BundleAge block is required. -/
def pbW : PrimaryBlock :=
  ⟨7, 0, 1, ⟨1, .strVal "dest"⟩, ⟨1, .uintVal 0⟩, ⟨2, .ipnPair 3 4⟩, (1, 0), 3600, 0, 0, []⟩

/-- A concrete payload block. -/
def cbW : CanonicalBlock := ⟨PayloadBlock, 1, 0, 1, .bytes [104, 105], []⟩

/-- A concrete valid bundle with its CRC values computed. -/
def bW : Bundle := Bundle.CalculateCRC ⟨pbW, [cbW]⟩

/-- A primary block violating several rules at once: its source EID is an
`ipn` EID with node number 0, and its creation timestamp time is 0. -/
def pbBad : PrimaryBlock :=
  ⟨7, 0, 0, ⟨1, .strVal "d"⟩, ⟨2, .ipnPair 0 4⟩, ⟨1, .uintVal 0⟩, (0, 0), 3600, 0, 0, []⟩

/-- Two canonical blocks sharing block number 3; no BundleAge block. -/
def cbBad1 : CanonicalBlock := ⟨PayloadBlock, 3, 0, 0, .bytes [], []⟩
def cbBad2 : CanonicalBlock := ⟨PreviousNodeBlock, 3, 0, 0, .null, []⟩

/-- A bundle with three violations of different classes: a per-block EID
violation, a duplicate block number, and a missing BundleAge block. -/
def bBad : Bundle := ⟨pbBad, [cbBad1, cbBad2]⟩

/-- The violation list of `bBad`. -/
def errsBad : List BundleError := [eidIpnRangeError, dupNumberError 3, missingAgeError]

/-- A second PreviousNode block (fresh block number), so that the
PreviousNode type occurs twice. -/
def cbBad3 : CanonicalBlock := ⟨PreviousNodeBlock, 4, 0, 0, .null, []⟩

/-- A bundle with four violations of different classes at once: a per-block
EID violation, a duplicate block number, a duplicate restricted block type
(two PreviousNode blocks), and a missing BundleAge block. -/
def bDup : Bundle := ⟨pbBad, [cbBad1, cbBad2, cbBad3]⟩

/-- The violation list of `bDup`. -/
def errsDup : List BundleError :=
  [eidIpnRangeError, dupNumberError 3, dupTypeError PreviousNodeBlock, missingAgeError]

/-- A bundle flagged as carrying an administrative record, with two canonical
blocks that request a status report and one that does not, and a BundleAge
block so that only status-report violations arise. -/
def bStatus : Bundle :=
  ⟨⟨7, AdministrativeRecordPayload, 0, ⟨1, .strVal "d"⟩, ⟨1, .strVal "s"⟩,
    ⟨1, .uintVal 0⟩, (0, 0), 0, 0, 0, []⟩,
   [⟨PayloadBlock, 1, StatusReportBlock, 0, .bytes [], []⟩,
    ⟨BundleAgeBlock, 2, 0, 0, .u64 0, []⟩,
    ⟨HopCountBlock, 3, StatusReportBlock, 0, .null, []⟩]⟩

/-- A canonical block with a computed (nonzero-length) 16-bit CRC value,
used to exhibit the in-place mutation during the integrity check. -/
def cbMut : CanonicalBlock := calculateCRCCanonical ⟨PayloadBlock, 1, 0, 1, .bytes [1, 2], []⟩

set_option maxRecDepth 65536

/-! ## General helper lemmas -/

theorem str_data_inj {a b : String} (h : a.data = b.data) : a = b := by
  cases a; cases b; exact congrArg String.mk h

theorem str_data_append (a b : String) : (a ++ b).data = a.data ++ b.data := rfl

theorem str_append_assoc (a b c : String) : a ++ b ++ c = a ++ (b ++ c) := by
  apply str_data_inj; simp [str_data_append]

/-- Two strings differing at an index inside the first one's prefix are
different, whatever follows the prefix. -/
theorem str_prefix_ne {p q x : String} {i : Nat} (hi : i < p.data.length)
    (hne : p.data[i]? ≠ q.data[i]?) : p ++ x ≠ q := by
  intro h
  apply hne
  have hd : p.data ++ x.data = q.data := by rw [← str_data_append, h]
  rw [← hd, List.getElem?_append_left hi]

theorem splitAtFirst_append (sep : Char) (l r : List Char)
    (hl : ∀ c ∈ l, c ≠ sep) : splitAtFirst sep (l ++ sep :: r) = some (l, r) := by
  induction l with
  | nil => simp [splitAtFirst]
  | cons c t ih =>
    have hc : c ≠ sep := hl c (by simp)
    have iht := ih (fun x hx => hl x (List.mem_cons_of_mem c hx))
    simp only [List.cons_append, splitAtFirst, if_neg hc]
    rw [show t.append (sep :: r) = t ++ sep :: r from rfl, iht]
    rfl

theorem digitChar_isDigit {d : Nat} (h : d < 10) : (digitChar d).isDigit = true := by
  interval_cases d <;> decide

theorem digitChar_toNat {d : Nat} (h : d < 10) : (digitChar d).toNat = 48 + d := by
  interval_cases d <;> decide

theorem natToDigitsCore_acc (fuel : Nat) : ∀ (n : Nat) (acc : List Char),
    natToDigitsCore fuel n acc = natToDigitsCore fuel n [] ++ acc := by
  induction fuel with
  | zero => intro n acc; simp [natToDigitsCore]
  | succ f ih =>
    intro n acc
    by_cases hn : n = 0
    · simp [natToDigitsCore, hn]
    · simp only [natToDigitsCore, if_neg hn]
      rw [ih (n / 10) (digitChar (n % 10) :: acc), ih (n / 10) [digitChar (n % 10)]]
      simp

theorem natToDigitsCore_mem {P : Char → Prop} (hP : ∀ d, d < 10 → P (digitChar d)) :
    ∀ (fuel n : Nat) (acc : List Char), (∀ c ∈ acc, P c) →
      ∀ c ∈ natToDigitsCore fuel n acc, P c := by
  intro fuel
  induction fuel with
  | zero =>
    intro n acc hacc c hc
    exact hacc c (by simpa [natToDigitsCore] using hc)
  | succ f ih =>
    intro n acc hacc c hc
    by_cases hn : n = 0
    · exact hacc c (by simpa [natToDigitsCore, hn] using hc)
    · refine ih (n / 10) _ ?_ c (by simpa [natToDigitsCore, hn] using hc)
      intro x hx
      rcases List.mem_cons.mp hx with h | h
      · exact h ▸ hP _ (Nat.mod_lt _ (by norm_num))
      · exact hacc x h

theorem natToDigits_all_digits (n : Nat) : ∀ c ∈ natToDigits n, c.isDigit = true := by
  unfold natToDigits
  by_cases hn : n = 0
  · simp [hn]
  · simpa [hn] using
      natToDigitsCore_mem (P := fun c => c.isDigit = true)
        (fun d hd => digitChar_isDigit hd) (n + 1) n [] (by simp)

theorem natToDigitsCore_length : ∀ (fuel n : Nat) (acc : List Char),
    acc.length ≤ (natToDigitsCore fuel n acc).length := by
  intro fuel
  induction fuel with
  | zero => intro n acc; simp [natToDigitsCore]
  | succ f ih =>
    intro n acc
    by_cases hn : n = 0
    · simp [natToDigitsCore, hn]
    · calc acc.length ≤ (digitChar (n % 10) :: acc).length := by simp
        _ ≤ _ := by simpa [natToDigitsCore, hn] using ih (n / 10) (digitChar (n % 10) :: acc)

theorem natToDigits_ne_nil (n : Nat) : natToDigits n ≠ [] := by
  unfold natToDigits
  by_cases hn : n = 0
  · simp [hn]
  · simp only [if_neg hn]
    intro h
    have h1 : (1 : Nat) ≤ (natToDigitsCore (n + 1) n []).length := by
      have := natToDigitsCore_length n (n / 10) [digitChar (n % 10)]
      simpa [natToDigitsCore, hn] using this
    rw [h] at h1
    simp at h1

theorem digitsToNat_append_digit (l : List Char) (c : Char) :
    digitsToNat (l ++ [c]) = digitsToNat l * 10 + (c.toNat - 48) := by
  simp [digitsToNat, List.foldl_append]

theorem natToDigitsCore_val : ∀ fuel n, n < fuel →
    digitsToNat (natToDigitsCore fuel n []) = n := by
  intro fuel
  induction fuel with
  | zero => omega
  | succ f ih =>
    intro n hn
    by_cases h0 : n = 0
    · simp [natToDigitsCore, h0, digitsToNat]
    · have hstep : natToDigitsCore (f + 1) n [] =
          natToDigitsCore f (n / 10) [] ++ [digitChar (n % 10)] := by
        simp only [natToDigitsCore, if_neg h0]
        exact natToDigitsCore_acc f (n / 10) [digitChar (n % 10)]
      have hdiv : n / 10 < f := by omega
      rw [hstep, digitsToNat_append_digit, ih (n / 10) hdiv,
        digitChar_toNat (Nat.mod_lt _ (by norm_num))]
      omega

theorem digitsToNat_natToDigits (n : Nat) : digitsToNat (natToDigits n) = n := by
  unfold natToDigits
  by_cases h0 : n = 0
  · simp [h0, digitsToNat]
  · simpa [h0] using natToDigitsCore_val (n + 1) n (by omega)

theorem isDigit_ne {c x : Char} (hc : c.isDigit = true) (hx : x.isDigit = false) : c ≠ x := by
  intro h; rw [h] at hc; rw [hc] at hx; cases hx

theorem map_eq_self_mem {α : Type} {f : α → α} :
    ∀ {l : List α}, l.map f = l → ∀ x ∈ l, f x = x := by
  intro l
  induction l with
  | nil => intro _ x hx; cases hx
  | cons a t ih =>
    intro h x hx
    rw [List.map_cons, List.cons.injEq] at h
    rcases List.mem_cons.mp hx with rfl | hxt
    · exact h.1
    · exact ih h.2 x hxt

/-! ## C2 — decoding a `dtn`-tagged EID whose SSP is a two-element numeric
sequence -/

/-- C2, counterexample: the claim states that a wire-decoded EndpointID with
scheme tag `dtn` (1) but a two-element numeric sequence as its
scheme-specific value is rejected with an error. In fact
`setEndpointIDFromCborArray` (and hence `CodecDecodeSelf`) branches on the
observed run-time type only and silently coerces the sequence into the
`[2]uint64` (`ipn`-shaped) value, returning without error. -/
theorem claim2_counterexample :
    setEndpointIDFromCborArray [.u64 1, .list [.u64 5, .u64 7]] =
      .ok ⟨endpointURISchemeDTN, .ipnPair 5 7⟩ ∧
    EndpointID.codecDecodeSelf (.list [.u64 1, .list [.u64 5, .u64 7]]) =
      .ok ⟨endpointURISchemeDTN, .ipnPair 5 7⟩ := ⟨rfl, rfl⟩

/-- C2, amended: for every wire-decoded EndpointID whose scheme tag is `dtn`
but whose scheme-specific value is a two-element numeric sequence, decoding
silently coerces the value into the number-pair shape (reinterpretation is by
observed run-time type, never by the declared scheme tag) and reports no
error; the subsequent validity check accepts the mismatched value as well. -/
theorem claim2_dtn_pair_silently_coerced (a b : Nat) :
    setEndpointIDFromCborArray [.u64 1, .list [.u64 a, .u64 b]] =
      .ok ⟨endpointURISchemeDTN, .ipnPair a b⟩ ∧
    EndpointID.checkValid ⟨endpointURISchemeDTN, .ipnPair a b⟩ = .ok none :=
  ⟨rfl, rfl⟩

/-! ## C5 — observable mutation during the integrity check -/

/-- C5, counterexample: the claim states that the integrity check never
mutates the shared block and that at every point observable during the check
the block's fields are unchanged. The source comment on `Bundle.CheckCRC`
says the opposite ("This method changes the block's CRC value temporary and
is not thread safe"): the state observable in the middle of the check has the
CRC field overwritten with its neutral value, which differs from the
computed CRC the block held before the call. -/
theorem claim5_counterexample :
    (checkCRCCanonicalTrace cbMut)[1]? = some { cbMut with CRC := [0, 0] } ∧
    cbMut.CRC ≠ [0, 0] := by
  constructor
  · rfl
  · decide

/-- C5, amended: during the integrity check of a block whose CRC mode is not
"none", the shared block's CRC field is temporarily overwritten in place with
its neutral value (observable mid-check, hence the source's thread-safety
warning), but it is restored before the check returns: the first and last
observable states equal the original block, so after `CheckCRC` returns every
block's fields are unchanged. -/
theorem claim5_crc_restored_after_check (cb : CanonicalBlock) :
    (checkCRCCanonicalTrace cb).head? = some cb ∧
    (checkCRCCanonicalTrace cb).getLast? = some cb := by
  unfold checkCRCCanonicalTrace
  by_cases h : cb.CRCType = 0 <;> simp [h]

/-! ## C10 — parsing only produces valid EndpointIDs -/

/-- C10: every EndpointID returned without error by `NewEndpointID` passes
`checkValid` (with no error and no panic); in particular the `dtn` null
marker is the uint 0 and never the string `"none"`, and an `ipn` result
always has node and service numbers at least 1. -/
theorem claim10_parse_implies_valid (t : String) (e : EndpointID)
    (h : NewEndpointID t = .ok e) :
    e.checkValid = .ok none ∧ e.SchemeSpecificPart ≠ .strVal "none" ∧
    (∀ a b : Nat, e.SchemeSpecificPart = .ipnPair a b → 1 ≤ a ∧ 1 ≤ b) := by
  unfold NewEndpointID at h
  split at h
  · exact absurd h (by simp)
  rename_i name ssp heq
  split at h
  case isFalse => exact absurd h (by simp)
  case isTrue hcond =>
    split at h
    case isTrue hdtn =>
      unfold newEndpointIDDTN at h
      split at h
      case isTrue hnone =>
        injection h with h
        subst h
        refine ⟨rfl, by simp, ?_⟩
        intro a b hab
        exact absurd hab (by simp)
      case isFalse hnone =>
        injection h with h
        subst h
        have hs : String.mk ssp ≠ "none" := by
          intro hh
          exact hnone (congrArg String.data hh)
        refine ⟨?_, ?_, ?_⟩
        · simp [EndpointID.checkValid, EndpointID.checkValidDtn, endpointURISchemeDTN, hs]
        · simp [hs]
        · intro a b hab
          exact absurd hab (by simp)
    case isFalse hdtn =>
      split at h
      case isFalse => exact absurd h (by simp)
      case isTrue hipn =>
        unfold newEndpointIDIPN at h
        split at h
        · exact absurd h (by simp)
        rename_i d1 d2 heq2
        split at h
        case isFalse => exact absurd h (by simp)
        case isTrue hdig =>
          split at h
          case isTrue => exact absurd h (by simp)
          case isFalse =>
            split at h
            case isTrue => exact absurd h (by simp)
            case isFalse =>
              split at h
              case isTrue => exact absurd h (by simp)
              case isFalse hlt =>
                injection h with h
                subst h
                push_neg at hlt
                refine ⟨?_, by simp, ?_⟩
                · simp [EndpointID.checkValid, EndpointID.checkValidIpn,
                    endpointURISchemeDTN, endpointURISchemeIPN]
                  omega
                · intro a b hab
                  simp only [SSPVal.ipnPair.injEq] at hab
                  omega

/-- C10, witness: `"dtn:none"` parses to the null marker, which satisfies all
three conclusions. -/
theorem claim10_witness :
    NewEndpointID "dtn:none" = .ok ⟨endpointURISchemeDTN, .uintVal 0⟩ ∧
    (EndpointID.checkValid ⟨endpointURISchemeDTN, .uintVal 0⟩ = .ok none ∧
      SSPVal.uintVal 0 ≠ .strVal "none" ∧
      (∀ a b : Nat, SSPVal.uintVal 0 = .ipnPair a b → 1 ≤ a ∧ 1 ≤ b)) :=
  ⟨rfl, claim10_parse_implies_valid "dtn:none" ⟨endpointURISchemeDTN, .uintVal 0⟩ rfl⟩

/-! ## C4 — EID text round trip -/

theorem NewEndpointID_dtn (s : String) (hne : s.data ≠ []) (hnl : ∀ c ∈ s.data, c ≠ '\n') :
    NewEndpointID ("dtn:" ++ s) = newEndpointIDDTN s.data := by
  unfold NewEndpointID
  have hd : ("dtn:" ++ s).data = 'd' :: 't' :: 'n' :: ':' :: s.data := by
    rw [str_data_append]; rfl
  have hsplit : splitAtFirst ':' ('d' :: 't' :: 'n' :: ':' :: s.data) =
      some (['d', 't', 'n'], s.data) := by rfl
  rw [hd, hsplit]
  have hcond : (['d', 't', 'n'] : List Char) ≠ [] ∧
      (['d', 't', 'n'] : List Char).all isAlnum = true ∧
      s.data ≠ [] ∧ s.data.all (fun c => decide (c ≠ '\n')) = true := by
    refine ⟨by decide, by decide, hne, ?_⟩
    simp only [List.all_eq_true, decide_eq_true_eq]
    exact hnl
  simp only [if_pos hcond]
  simp

theorem NewEndpointID_ipn (s : String) (hne : s.data ≠ []) (hnl : ∀ c ∈ s.data, c ≠ '\n') :
    NewEndpointID ("ipn:" ++ s) = newEndpointIDIPN s.data := by
  unfold NewEndpointID
  have hd : ("ipn:" ++ s).data = 'i' :: 'p' :: 'n' :: ':' :: s.data := by
    rw [str_data_append]; rfl
  have hsplit : splitAtFirst ':' ('i' :: 'p' :: 'n' :: ':' :: s.data) =
      some (['i', 'p', 'n'], s.data) := by rfl
  rw [hd, hsplit]
  have hcond : (['i', 'p', 'n'] : List Char) ≠ [] ∧
      (['i', 'p', 'n'] : List Char).all isAlnum = true ∧
      s.data ≠ [] ∧ s.data.all (fun c => decide (c ≠ '\n')) = true := by
    refine ⟨by decide, by decide, hne, ?_⟩
    simp only [List.all_eq_true, decide_eq_true_eq]
    exact hnl
  simp only [if_pos hcond]
  simp

theorem newEndpointIDIPN_canonical (n sv : Nat) (hn64 : n < 2 ^ 64) (hs64 : sv < 2 ^ 64)
    (hn1 : 1 ≤ n) (hs1 : 1 ≤ sv) :
    newEndpointIDIPN (natToDigits n ++ '.' :: natToDigits sv) =
      .ok ⟨endpointURISchemeIPN, .ipnPair n sv⟩ := by
  unfold newEndpointIDIPN
  have hsplit : splitAtFirst '.' (natToDigits n ++ '.' :: natToDigits sv) =
      some (natToDigits n, natToDigits sv) :=
    splitAtFirst_append '.' _ _
      (fun c hc => isDigit_ne (natToDigits_all_digits n c hc) (by decide))
  rw [hsplit]
  have hcond : natToDigits n ≠ [] ∧ (natToDigits n).all Char.isDigit = true ∧
      natToDigits sv ≠ [] ∧ (natToDigits sv).all Char.isDigit = true := by
    refine ⟨natToDigits_ne_nil n, ?_, natToDigits_ne_nil sv, ?_⟩ <;>
      simp only [List.all_eq_true] <;> intro c hc
    · exact natToDigits_all_digits n c hc
    · exact natToDigits_all_digits sv c hc
  simp only [if_pos hcond, digitsToNat_natToDigits]
  rw [if_neg (by omega), if_neg (by omega), if_neg (by omega)]

theorem render_ipn (n sv : Nat) :
    EndpointID.render ⟨endpointURISchemeIPN, .ipnPair n sv⟩ =
      "ipn:" ++ natToStr n ++ "." ++ natToStr sv := by
  show "ipn" ++ ":" ++ (natToStr n ++ "." ++ natToStr sv) =
    "ipn:" ++ natToStr n ++ "." ++ natToStr sv
  apply str_data_inj
  simp [str_data_append]

theorem render_dtn_str (s : String) :
    EndpointID.render ⟨endpointURISchemeDTN, .strVal s⟩ = "dtn:" ++ s := by
  show "dtn" ++ ":" ++ s = "dtn:" ++ s
  apply str_data_inj
  simp [str_data_append]

/-- C4, counterexample: `"ipn:05.2"` is a valid EID text exactly as the claim
words it (scheme `ipn`, SSP `digits.digits`, both values at least 1), and
`NewEndpointID` accepts it, but rendering the result yields `"ipn:5.2"`, not
the original text: the round trip fails on non-canonical digit strings. -/
theorem claim4_counterexample :
    ValidEIDTextClaim "ipn:05.2" ∧
    (NewEndpointID "ipn:05.2").map EndpointID.render = .ok "ipn:5.2" ∧
    "ipn:5.2" ≠ "ipn:05.2" := by
  refine ⟨Or.inr ⟨['0', '5'], ['2'], by decide, by decide, by decide, by decide,
    by decide, by decide, by decide⟩, by rfl, by decide⟩

/-- C4, amended: for every valid EID text `T` whose `ipn` components are
written canonically — no leading zeros and values inside the unsigned 64-bit
range — parsing `T` with `NewEndpointID` succeeds and rendering the result
returns exactly `T`. (`dtn` SSPs are, as in the claim, `none` or an opaque
nonempty newline-free string.) -/
theorem claim4_parse_render_roundtrip (T : String) (h : ValidEIDTextCanonical T) :
    (NewEndpointID T).map EndpointID.render = .ok T := by
  rcases h with ⟨s, rfl, hne, hnl⟩ | ⟨n, sv, hn1, hn64, hs1, hs64, rfl⟩
  · rw [NewEndpointID_dtn s hne hnl]
    unfold newEndpointIDDTN
    by_cases hcase : s.data = "none".data
    · have hs : s = "none" := str_data_inj hcase
      subst hs
      rw [if_pos hcase]
      rfl
    · rw [if_neg hcase]
      have heta : String.mk s.data = s := rfl
      rw [heta]
      show Except.ok (EndpointID.render ⟨endpointURISchemeDTN, .strVal s⟩) = _
      rw [render_dtn_str]
  · have hT : "ipn:" ++ natToStr n ++ "." ++ natToStr sv =
        "ipn:" ++ (natToStr n ++ "." ++ natToStr sv) := by
      rw [str_append_assoc, str_append_assoc, str_append_assoc]
    have hsdata : (natToStr n ++ "." ++ natToStr sv).data =
        natToDigits n ++ '.' :: natToDigits sv := by
      simp [str_data_append, natToStr]
    have hne2 : (natToStr n ++ "." ++ natToStr sv).data ≠ [] := by
      rw [hsdata]
      intro hh
      exact natToDigits_ne_nil n (List.append_eq_nil.mp hh).1
    have hnl2 : ∀ c ∈ (natToStr n ++ "." ++ natToStr sv).data, c ≠ '\n' := by
      rw [hsdata]
      intro c hc
      rcases List.mem_append.mp hc with hc1 | hc2
      · exact isDigit_ne (natToDigits_all_digits n c hc1) (by decide)
      · rcases List.mem_cons.mp hc2 with rfl | hc3
        · decide
        · exact isDigit_ne (natToDigits_all_digits sv c hc3) (by decide)
    rw [hT, NewEndpointID_ipn _ hne2 hnl2, hsdata,
      newEndpointIDIPN_canonical n sv hn64 hs64 hn1 hs1]
    show Except.ok (EndpointID.render ⟨endpointURISchemeIPN, .ipnPair n sv⟩) = _
    rw [render_ipn, hT]

/-- C4, witness for the amended claim: `"ipn:5.2"` is canonical valid EID
text and round-trips exactly. -/
theorem claim4_witness :
    ValidEIDTextCanonical "ipn:5.2" ∧
    (NewEndpointID "ipn:5.2").map EndpointID.render = .ok "ipn:5.2" :=
  have hv : ValidEIDTextCanonical "ipn:5.2" :=
    Or.inr ⟨5, 2, by decide, by decide, by decide, by decide, by decide⟩
  ⟨hv, claim4_parse_render_roundtrip "ipn:5.2" hv⟩

/-! ## Validation decomposition lemmas -/

theorem canonicalsCheckE_ok (l : List CanonicalBlock) : canonicalsCheckE l = .ok [] := by
  induction l with
  | nil => rfl
  | cons a t ih => simp [canonicalsCheckE, CanonicalBlock.checkValidE, ih, Bind.bind, Except.bind]

theorem checkValidE_decomp (b : Bundle) (errs : List BundleError)
    (h : b.checkValidE = .ok errs) :
    ∃ pes, b.PrimaryBlock.checkValidE = .ok pes ∧
      errs = pes ++ bundleStatusErrs b ++ (dupScan b.CanonicalBlocks [] []).1 ++
        bundleAgeErrs b := by
  unfold Bundle.checkValidE at h
  cases hp : b.PrimaryBlock.checkValidE with
  | error p => rw [hp] at h; exact absurd h (by simp [Bind.bind, Except.bind])
  | ok pes =>
    rw [hp, canonicalsCheckE_ok] at h
    simp only [Bind.bind, Except.bind] at h
    refine ⟨pes, rfl, ?_⟩
    injection h with h
    rw [← h]
    simp

theorem eid_checkValid_cases (e : EndpointID) (x : BundleError)
    (h : e.checkValid = .ok (some x)) :
    x = eidNoneStrError ∨ x = eidIpnRangeError ∨ x = eidUnknownSchemeError := by
  unfold EndpointID.checkValid at h
  split_ifs at h
  · injection h with h
    unfold EndpointID.checkValidDtn at h
    split at h
    · split at h
      · injection h with h; exact Or.inl h.symm
      · cases h
    · cases h
  · unfold EndpointID.checkValidIpn at h
    split at h
    · injection h with h
      split at h
      · injection h with h; exact Or.inr (Or.inl h.symm)
      · cases h
    · cases h
  · injection h with h
    injection h with h
    exact Or.inr (Or.inr h.symm)

theorem primary_errs_cases (pb : PrimaryBlock) (pes : List BundleError)
    (h : pb.checkValidE = .ok pes) :
    ∀ x ∈ pes, x = eidNoneStrError ∨ x = eidIpnRangeError ∨ x = eidUnknownSchemeError := by
  unfold PrimaryBlock.checkValidE at h
  cases h1 : pb.Destination.checkValid with
  | error p => rw [h1] at h; exact absurd h (by simp [Bind.bind, Except.bind])
  | ok e1 =>
  cases h2 : pb.SourceNode.checkValid with
  | error p => rw [h1, h2] at h; exact absurd h (by simp [Bind.bind, Except.bind])
  | ok e2 =>
  cases h3 : pb.ReportTo.checkValid with
  | error p => rw [h1, h2, h3] at h; exact absurd h (by simp [Bind.bind, Except.bind])
  | ok e3 =>
    rw [h1, h2, h3] at h
    simp only [Bind.bind, Except.bind] at h
    injection h with h
    intro x hx
    rw [← h] at hx
    rcases List.mem_append.mp hx with hx' | hx'
    · rcases List.mem_append.mp hx' with hx'' | hx''
      · have he : e1 = some x := by cases e1 <;> simp_all
        exact eid_checkValid_cases _ x (he ▸ h1)
      · have he : e2 = some x := by cases e2 <;> simp_all
        exact eid_checkValid_cases _ x (he ▸ h2)
    · have he : e3 = some x := by cases e3 <;> simp_all
      exact eid_checkValid_cases _ x (he ▸ h3)

/-! ## Distinctness of the violation messages -/

theorem dupNumberError_ne_age (n : Nat) : dupNumberError n ≠ missingAgeError := by
  intro h
  injection h with h
  rw [str_append_assoc] at h
  exact str_prefix_ne (p := "Bundle: Block number ") (i := 8) (by decide) (by decide) h

theorem dupTypeError_ne_age (t : Nat) : dupTypeError t ≠ missingAgeError := by
  intro h
  injection h with h
  rw [str_append_assoc] at h
  exact str_prefix_ne (p := "Bundle: Block type ") (i := 8) (by decide) (by decide) h

theorem dupNumberError_ne_status (n : Nat) : dupNumberError n ≠ statusReportError := by
  intro h
  injection h with h
  rw [str_append_assoc] at h
  exact str_prefix_ne (p := "Bundle: Block number ") (i := 9) (by decide) (by decide) h

theorem dupTypeError_ne_status (t : Nat) : dupTypeError t ≠ statusReportError := by
  intro h
  injection h with h
  rw [str_append_assoc] at h
  exact str_prefix_ne (p := "Bundle: Block type ") (i := 9) (by decide) (by decide) h

theorem dupNumberError_ne_eid (n : Nat) :
    dupNumberError n ≠ eidNoneStrError ∧ dupNumberError n ≠ eidIpnRangeError ∧
    dupNumberError n ≠ eidUnknownSchemeError := by
  refine ⟨?_, ?_, ?_⟩ <;>
    · intro h
      injection h with h
      rw [str_append_assoc] at h
      exact str_prefix_ne (p := "Bundle: Block number ") (i := 0) (by decide) (by decide) h

theorem dupTypeError_ne_eid (t : Nat) :
    dupTypeError t ≠ eidNoneStrError ∧ dupTypeError t ≠ eidIpnRangeError ∧
    dupTypeError t ≠ eidUnknownSchemeError := by
  refine ⟨?_, ?_, ?_⟩ <;>
    · intro h
      injection h with h
      rw [str_append_assoc] at h
      exact str_prefix_ne (p := "Bundle: Block type ") (i := 0) (by decide) (by decide) h

/-! ## dupScan lemmas -/

theorem dupScan_errs_shape : ∀ (l : List CanonicalBlock) (ns ts : List Nat),
    ∀ x ∈ (dupScan l ns ts).1,
      (∃ n, x = dupNumberError n) ∨ ∃ t, x = dupTypeError t := by
  intro l
  induction l with
  | nil => intro ns ts x hx; simp [dupScan] at hx
  | cons cb rest ih =>
    intro ns ts x hx
    simp only [dupScan] at hx
    rcases List.mem_append.mp hx with hx' | hx'
    · rcases List.mem_append.mp hx' with hx'' | hx''
      · split at hx''
        · exact Or.inl ⟨cb.BlockNumber, (List.mem_singleton.mp hx'').symm ▸ rfl⟩
        · cases hx''
      · split at hx''
        · exact Or.inr ⟨cb.BlockType, (List.mem_singleton.mp hx'').symm ▸ rfl⟩
        · cases hx''
    · exact ih _ _ x hx'

theorem dupScan_age_mem : ∀ (l : List CanonicalBlock) (ns ts : List Nat),
    BundleAgeBlock ∈ (dupScan l ns ts).2 ↔
      BundleAgeBlock ∈ ts ∨ ∃ cb ∈ l, cb.BlockType = BundleAgeBlock := by
  intro l
  induction l with
  | nil => intro ns ts; simp [dupScan]
  | cons cb rest ih =>
    intro ns ts
    show BundleAgeBlock ∈ (dupScan rest (cb.BlockNumber :: ns)
        (if restrictedType cb.BlockType then cb.BlockType :: ts else ts)).2 ↔ _
    rw [ih]
    constructor
    · rintro (hts | ⟨x, hx, hxt⟩)
      · by_cases hr : restrictedType cb.BlockType
        · rw [if_pos hr] at hts
          rcases List.mem_cons.mp hts with h8 | hts'
          · exact Or.inr ⟨cb, List.mem_cons_self _ _, h8.symm⟩
          · exact Or.inl hts'
        · rw [if_neg hr] at hts
          exact Or.inl hts
      · exact Or.inr ⟨x, List.mem_cons_of_mem _ hx, hxt⟩
    · rintro (hts | ⟨x, hx, hxt⟩)
      · left
        split
        · exact List.mem_cons_of_mem _ hts
        · exact hts
      · rcases List.mem_cons.mp hx with rfl | hx'
        · left
          have hr : restrictedType x.BlockType := Or.inr (Or.inl hxt)
          rw [if_pos hr, hxt]
          exact List.mem_cons_self _ _
        · exact Or.inr ⟨x, hx', hxt⟩

theorem dupScan_dup_mem : ∀ (l : List CanonicalBlock) (ns ts : List Nat) (n : Nat),
    ((n ∈ ns ∧ n ∈ l.map CanonicalBlock.BlockNumber) ∨
      2 ≤ (l.map CanonicalBlock.BlockNumber).count n) →
    dupNumberError n ∈ (dupScan l ns ts).1 := by
  intro l
  induction l with
  | nil =>
    intro ns ts n h
    rcases h with ⟨_, h⟩ | h <;> simp at h
  | cons cb rest ih =>
    intro ns ts n h
    show dupNumberError n ∈
      (if cb.BlockNumber ∈ ns then [dupNumberError cb.BlockNumber] else []) ++
      (if restrictedType cb.BlockType ∧ cb.BlockType ∈ ts then
        [dupTypeError cb.BlockType] else []) ++
      (dupScan rest (cb.BlockNumber :: ns)
        (if restrictedType cb.BlockType then cb.BlockType :: ts else ts)).1
    have hmapc : (cb :: rest).map CanonicalBlock.BlockNumber =
        cb.BlockNumber :: rest.map CanonicalBlock.BlockNumber := rfl
    by_cases hcb : cb.BlockNumber = n
    · by_cases hns : n ∈ ns
      · refine List.mem_append.mpr (Or.inl (List.mem_append.mpr (Or.inl ?_)))
        rw [if_pos (hcb ▸ hns), hcb]
        exact List.mem_singleton.mpr rfl
      · refine List.mem_append.mpr (Or.inr ?_)
        apply ih
        left
        refine ⟨hcb ▸ List.mem_cons_self cb.BlockNumber ns, ?_⟩
        rcases h with ⟨hin, _⟩ | hcount
        · exact absurd hin hns
        · rw [hmapc, List.count_cons] at hcount
          have hif : (if (cb.BlockNumber == n) = true then 1 else 0) = 1 := by simp [hcb]
          rw [hif] at hcount
          exact List.count_pos_iff.mp (by omega)
    · refine List.mem_append.mpr (Or.inr ?_)
      apply ih
      have hcb' : ¬(n = cb.BlockNumber) := fun hh => hcb hh.symm
      rcases h with ⟨hin, hmem⟩ | hcount
      · left
        refine ⟨List.mem_cons_of_mem _ hin, ?_⟩
        rw [hmapc] at hmem
        rcases List.mem_cons.mp hmem with heq | hmem'
        · exact absurd heq hcb'
        · exact hmem'
      · right
        rw [hmapc, List.count_cons] at hcount
        simpa [hcb] using hcount

theorem dupScan_dupType_mem : ∀ (l : List CanonicalBlock) (ns ts : List Nat) (t : Nat),
    restrictedType t →
    ((t ∈ ts ∧ t ∈ l.map CanonicalBlock.BlockType) ∨
      2 ≤ (l.map CanonicalBlock.BlockType).count t) →
    dupTypeError t ∈ (dupScan l ns ts).1 := by
  intro l
  induction l with
  | nil =>
    intro ns ts t _ h
    rcases h with ⟨_, h⟩ | h <;> simp at h
  | cons cb rest ih =>
    intro ns ts t hr h
    show dupTypeError t ∈
      (if cb.BlockNumber ∈ ns then [dupNumberError cb.BlockNumber] else []) ++
      (if restrictedType cb.BlockType ∧ cb.BlockType ∈ ts then
        [dupTypeError cb.BlockType] else []) ++
      (dupScan rest (cb.BlockNumber :: ns)
        (if restrictedType cb.BlockType then cb.BlockType :: ts else ts)).1
    have hmapc : (cb :: rest).map CanonicalBlock.BlockType =
        cb.BlockType :: rest.map CanonicalBlock.BlockType := rfl
    by_cases hcb : cb.BlockType = t
    · have hrcb : restrictedType cb.BlockType := by rw [hcb]; exact hr
      by_cases hts : t ∈ ts
      · refine List.mem_append.mpr (Or.inl (List.mem_append.mpr (Or.inr ?_)))
        rw [if_pos ⟨hrcb, by rw [hcb]; exact hts⟩, hcb]
        exact List.mem_singleton.mpr rfl
      · refine List.mem_append.mpr (Or.inr ?_)
        apply ih _ _ t hr
        left
        constructor
        · rw [if_pos hrcb, hcb]
          exact List.mem_cons_self _ _
        · rcases h with ⟨hin, _⟩ | hcount
          · exact absurd hin hts
          · rw [hmapc, List.count_cons] at hcount
            have hif : (if (cb.BlockType == t) = true then 1 else 0) = 1 := by simp [hcb]
            rw [hif] at hcount
            exact List.count_pos_iff.mp (by omega)
    · refine List.mem_append.mpr (Or.inr ?_)
      apply ih _ _ t hr
      have hcb' : ¬(t = cb.BlockType) := fun hh => hcb hh.symm
      rcases h with ⟨hin, hmem⟩ | hcount
      · left
        constructor
        · split
          · exact List.mem_cons_of_mem _ hin
          · exact hin
        · rw [hmapc] at hmem
          rcases List.mem_cons.mp hmem with heq | hmem'
          · exact absurd heq hcb'
          · exact hmem'
      · right
        rw [hmapc, List.count_cons] at hcount
        simpa [hcb] using hcount

/-! ## Status / age component lemmas -/

theorem bundleStatusErrs_shape (b : Bundle) :
    ∀ x ∈ bundleStatusErrs b, x = statusReportError := by
  intro x hx
  unfold bundleStatusErrs at hx
  split at hx
  · rcases List.mem_map.mp hx with ⟨_, _, hxx⟩
    exact hxx.symm
  · cases hx

theorem count_map_const {α : Type} (l : List α) (x : BundleError) :
    (l.map (fun _ => x)).count x = l.length := by
  induction l with
  | nil => rfl
  | cons a t ih => simp [List.count_cons, ih]

theorem bundleStatusErrs_count (b : Bundle) :
    (bundleStatusErrs b).count statusReportError =
      if statusReportForbidden b then
        (b.CanonicalBlocks.filter
          (fun cb => hasFlag cb.BlockControlFlags StatusReportBlock)).length
      else 0 := by
  unfold bundleStatusErrs
  split
  · exact count_map_const _ _
  · rfl

theorem bundleStatusErrs_mem (b : Bundle) (hcond : statusReportForbidden b)
    (cb : CanonicalBlock) (hcb : cb ∈ b.CanonicalBlocks)
    (hflag : hasFlag cb.BlockControlFlags StatusReportBlock = true) :
    statusReportError ∈ bundleStatusErrs b := by
  unfold bundleStatusErrs
  rw [if_pos hcond]
  exact List.mem_map.mpr ⟨cb, List.mem_filter.mpr ⟨hcb, hflag⟩, rfl⟩

theorem bundleAgeErrs_mem (b : Bundle) :
    missingAgeError ∈ bundleAgeErrs b ↔
      (b.PrimaryBlock.CreationTimestamp.1 = 0 ∧
        ∀ cb ∈ b.CanonicalBlocks, cb.BlockType ≠ BundleAgeBlock) := by
  unfold bundleAgeErrs
  split <;> rename_i hcond
  · simp only [List.mem_singleton, true_iff]
    refine ⟨hcond.1, ?_⟩
    intro cb hcb hage
    exact hcond.2 ((dupScan_age_mem _ _ _).mpr (Or.inr ⟨cb, hcb, hage⟩))
  · simp only [List.not_mem_nil, false_iff]
    intro ⟨hts, hnone⟩
    apply hcond
    refine ⟨hts, ?_⟩
    intro hmem
    rcases (dupScan_age_mem _ _ _).mp hmem with h8 | ⟨cb, hcb, hage⟩
    · simp at h8
    · exact hnone cb hcb hage

/-! ## C7 — zero creation timestamp requires a BundleAge block -/

/-- C7: for every Bundle on which `checkValid` completes, the missing-
BundleAge violation is reported exactly when the primary block's creation
timestamp time component is 0 and no canonical block of type BundleAge is
present; in particular it is reported for every such bundle without a
BundleAge block and not reported when one is present. -/
theorem claim7_missing_bundle_age (b : Bundle) (errs : List BundleError)
    (h : b.checkValidE = .ok errs) :
    missingAgeError ∈ errs ↔
      (b.PrimaryBlock.CreationTimestamp.1 = 0 ∧
        ∀ cb ∈ b.CanonicalBlocks, cb.BlockType ≠ BundleAgeBlock) := by
  rcases checkValidE_decomp b errs h with ⟨pes, hp, rfl⟩
  rw [← bundleAgeErrs_mem b]
  simp only [List.mem_append]
  constructor
  · rintro (((hx | hx) | hx) | hx)
    · rcases primary_errs_cases _ _ hp _ hx with h' | h' | h' <;>
        exact absurd h' (by decide)
    · exact absurd (bundleStatusErrs_shape b _ hx) (by decide)
    · rcases dupScan_errs_shape _ _ _ _ hx with ⟨n, hn⟩ | ⟨t, ht⟩
      · exact absurd hn.symm (dupNumberError_ne_age n)
      · exact absurd ht.symm (dupTypeError_ne_age t)
    · exact hx
  · intro hx
    exact Or.inr hx

/-- C7, witness: `bBad` has creation time 0 and no BundleAge block, and its
violation list indeed contains the missing-BundleAge violation. -/
theorem claim7_witness : missingAgeError ∈ errsBad :=
  (claim7_missing_bundle_age bBad errsBad (by rfl)).mpr ⟨rfl, by decide⟩

/-! ## C8 — status-report flags under an administrative record or null
source -/

/-- C8: for every Bundle on which `checkValid` completes, the violation list
contains the status-report violation once per canonical block that requests a
status report, exactly when the bundle carries an administrative-record
payload or its source EID is `dtn:none`; otherwise that violation does not
occur at all. -/
theorem claim8_status_report_count (b : Bundle) (errs : List BundleError)
    (h : b.checkValidE = .ok errs) :
    errs.count statusReportError =
      if statusReportForbidden b then
        (b.CanonicalBlocks.filter
          (fun cb => hasFlag cb.BlockControlFlags StatusReportBlock)).length
      else 0 := by
  rcases checkValidE_decomp b errs h with ⟨pes, hp, rfl⟩
  rw [List.count_append, List.count_append, List.count_append]
  have c1 : pes.count statusReportError = 0 := by
    rw [List.count_eq_zero]
    intro hmem
    rcases primary_errs_cases _ _ hp _ hmem with h' | h' | h' <;> exact absurd h' (by decide)
  have c3 : ((dupScan b.CanonicalBlocks [] []).1).count statusReportError = 0 := by
    rw [List.count_eq_zero]
    intro hmem
    rcases dupScan_errs_shape _ _ _ _ hmem with ⟨n, hn⟩ | ⟨t, ht⟩
    · exact dupNumberError_ne_status n hn.symm
    · exact dupTypeError_ne_status t ht.symm
  have c4 : (bundleAgeErrs b).count statusReportError = 0 := by
    unfold bundleAgeErrs
    split
    · decide
    · rfl
  rw [c1, c3, c4, bundleStatusErrs_count]
  omega

/-- C8, witness: `bStatus` is flagged as an administrative record and has two
canonical blocks requesting a status report (and one that does not); its
violation list is exactly two status-report violations. -/
theorem claim8_witness :
    Bundle.checkValidE bStatus = .ok [statusReportError, statusReportError] ∧
    (if statusReportForbidden bStatus then
        (bStatus.CanonicalBlocks.filter
          (fun cb => hasFlag cb.BlockControlFlags StatusReportBlock)).length
      else 0) = 2 := by
  refine ⟨by rfl, ?_⟩
  rw [← claim8_status_report_count bStatus [statusReportError, statusReportError] (by rfl)]
  decide

/-! ## C3 — all violations are aggregated -/

/-- C3: for every Bundle on which `checkValid` completes, the returned
aggregate contains every violation found — all per-block violations of the
primary block, the status-report violation whenever its condition and a
flagged block exist, a duplicate-number violation for every block number
occurring at least twice, a duplicate-type violation for every restricted
block type (PreviousNode, BundleAge, HopCount) occurring at least twice, and
the missing-BundleAge violation whenever its condition holds — never only the
first one. (`NewBundle` and `NewBundleFromCbor` return this same aggregate.) -/
theorem claim3_all_violations_aggregated (b : Bundle) (errs : List BundleError)
    (h : b.checkValidE = .ok errs) :
    (∀ pes, b.PrimaryBlock.checkValidE = .ok pes → ∀ x ∈ pes, x ∈ errs) ∧
    (statusReportForbidden b → ∀ cb ∈ b.CanonicalBlocks,
      hasFlag cb.BlockControlFlags StatusReportBlock = true → statusReportError ∈ errs) ∧
    (∀ n, 2 ≤ (b.CanonicalBlocks.map CanonicalBlock.BlockNumber).count n →
      dupNumberError n ∈ errs) ∧
    (∀ t, restrictedType t →
      2 ≤ (b.CanonicalBlocks.map CanonicalBlock.BlockType).count t →
      dupTypeError t ∈ errs) ∧
    (b.PrimaryBlock.CreationTimestamp.1 = 0 →
      (∀ cb ∈ b.CanonicalBlocks, cb.BlockType ≠ BundleAgeBlock) →
      missingAgeError ∈ errs) := by
  rcases checkValidE_decomp b errs h with ⟨pes0, hp, rfl⟩
  refine ⟨?_, ?_, ?_, ?_, ?_⟩
  · intro pes hpes x hx
    rw [hp] at hpes
    injection hpes with hpes
    rw [← hpes] at hx
    exact List.mem_append.mpr (Or.inl (List.mem_append.mpr (Or.inl
      (List.mem_append.mpr (Or.inl hx)))))
  · intro hcond cb hcb hflag
    exact List.mem_append.mpr (Or.inl (List.mem_append.mpr (Or.inl
      (List.mem_append.mpr (Or.inr (bundleStatusErrs_mem b hcond cb hcb hflag))))))
  · intro n hn
    exact List.mem_append.mpr (Or.inl (List.mem_append.mpr (Or.inr
      (dupScan_dup_mem b.CanonicalBlocks [] [] n (Or.inr hn)))))
  · intro t hrt hcnt
    exact List.mem_append.mpr (Or.inl (List.mem_append.mpr (Or.inr
      (dupScan_dupType_mem b.CanonicalBlocks [] [] t hrt (Or.inr hcnt)))))
  · intro hts hnone
    exact List.mem_append.mpr (Or.inr ((bundleAgeErrs_mem b).mpr ⟨hts, hnone⟩))

/-- C3, witness: `bDup` violates four different rules at once — its source
EID is an `ipn` EID with node number 0 (a per-block violation), two canonical
blocks share block number 3, two canonical blocks have the restricted type
PreviousNode, and the creation time is 0 with no BundleAge block — and the
aggregate contains all four violations. -/
theorem claim3_witness :
    eidIpnRangeError ∈ errsDup ∧ dupNumberError 3 ∈ errsDup ∧
    dupTypeError PreviousNodeBlock ∈ errsDup ∧ missingAgeError ∈ errsDup := by
  have h := claim3_all_violations_aggregated bDup errsDup (by rfl)
  refine ⟨?_, ?_, ?_, ?_⟩
  · exact h.1 [eidIpnRangeError] (by rfl) _ (by decide)
  · exact h.2.2.1 3 (by decide)
  · exact h.2.2.2.1 PreviousNodeBlock (by decide) (by decide)
  · exact h.2.2.2.2 rfl (by decide)

/-! ## Codec round-trip lemmas -/

theorem eid_codec_roundtrip (e : EndpointID) (h : e.SchemeSpecificPart ≠ .nilVal) :
    EndpointID.codecDecodeSelf e.codecEncodeSelf = .ok e := by
  obtain ⟨sn, ssp⟩ := e
  cases ssp with
  | uintVal n => rfl
  | strVal s => rfl
  | ipnPair a b => rfl
  | nilVal => exact absurd rfl h

theorem canonical_codec_roundtrip (cb : CanonicalBlock)
    (hcrc : cb.CRCType = 0 → cb.CRC = []) :
    decodeCanonicalBlock (encodeCanonicalBlock cb) = .ok cb := by
  obtain ⟨bt, bn, fl, ct, d, crc⟩ := cb
  simp only [encodeCanonicalBlock, decodeCanonicalBlock, List.cons_append, List.nil_append]
  by_cases hct : ct = 0
  · have h0 : crc = [] := hcrc hct
    subst h0
    simp [hct]
  · simp [hct]

theorem primary_codec_roundtrip (pb : PrimaryBlock)
    (h1 : pb.Destination.SchemeSpecificPart ≠ .nilVal)
    (h2 : pb.SourceNode.SchemeSpecificPart ≠ .nilVal)
    (h3 : pb.ReportTo.SchemeSpecificPart ≠ .nilVal)
    (hfrag : hasFlag pb.BundleControlFlags IsFragment = false →
      pb.FragmentOffset = 0 ∧ pb.TotalDataLength = 0)
    (hcrc : pb.CRCType = 0 → pb.CRC = []) :
    decodePrimaryBlock (encodePrimaryBlock pb) = .ok pb := by
  have hd := eid_codec_roundtrip pb.Destination h1
  have hs := eid_codec_roundtrip pb.SourceNode h2
  have hr := eid_codec_roundtrip pb.ReportTo h3
  obtain ⟨ver, flags, ct, dest, src, rpt, ts, lt, fo, tl, crc⟩ := pb
  obtain ⟨t0, t1⟩ := ts
  simp only at hd hs hr hfrag hcrc
  simp only [encodePrimaryBlock, decodePrimaryBlock, List.cons_append, List.nil_append]
  rw [hd, hs, hr]
  simp only [Bind.bind, Except.bind]
  by_cases hf : hasFlag flags IsFragment = true
  · simp only [hf, if_true]
    by_cases hct : ct = 0
    · have h0 : crc = [] := hcrc hct
      subst h0
      simp [hct]
    · simp [hct]
  · have hz := hfrag (by simpa using hf)
    simp only [hf, if_false]
    rw [hz.1, hz.2]
    by_cases hct : ct = 0
    · have h0 : crc = [] := hcrc hct
      subst h0
      simp [hct, hf]
    · simp [hct, hf]

theorem decodeCanonicals_roundtrip (l : List CanonicalBlock)
    (h : ∀ cb ∈ l, cb.CRCType = 0 → cb.CRC = []) :
    decodeCanonicals (l.map encodeCanonicalBlock) = .ok l := by
  induction l with
  | nil => rfl
  | cons a t ih =>
    simp only [List.map_cons, decodeCanonicals]
    rw [canonical_codec_roundtrip a (h a (List.mem_cons_self _ _)),
      ih (fun cb hcb => h cb (List.mem_cons_of_mem _ hcb))]
    rfl

/-! ## CRC fixpoint lemmas -/

theorem checkCRCPrimary_of_calculate (pb : PrimaryBlock)
    (h : calculateCRCPrimary pb = pb) : checkCRCPrimary pb = true := by
  have hc : pb.CRC =
      checksumOf pb.CRCType (encodePrimaryBlock { pb with CRC := neutralCRC pb.CRCType }) := by
    conv_lhs => rw [← h]
    rfl
  unfold checkCRCPrimary
  split
  · rfl
  · simp [← hc]

theorem checkCRCCanonical_of_calculate (cb : CanonicalBlock)
    (h : calculateCRCCanonical cb = cb) : checkCRCCanonical cb = true := by
  have hc : cb.CRC =
      checksumOf cb.CRCType (encodeCanonicalBlock { cb with CRC := neutralCRC cb.CRCType }) := by
    conv_lhs => rw [← h]
    rfl
  unfold checkCRCCanonical
  split
  · rfl
  · simp [← hc]

theorem crc_zero_primary (pb : PrimaryBlock) (h : calculateCRCPrimary pb = pb)
    (h0 : pb.CRCType = 0) : pb.CRC = [] := by
  conv_lhs => rw [← h]
  show checksumOf pb.CRCType _ = []
  simp [checksumOf, h0]

theorem crc_zero_canonical (cb : CanonicalBlock) (h : calculateCRCCanonical cb = cb)
    (h0 : cb.CRCType = 0) : cb.CRC = [] := by
  conv_lhs => rw [← h]
  show checksumOf cb.CRCType _ = []
  simp [checksumOf, h0]

theorem bundle_checkCRC_of_calculate (b : Bundle) (hC : b.CalculateCRC = b) :
    b.CheckCRC = true := by
  have hp : calculateCRCPrimary b.PrimaryBlock = b.PrimaryBlock :=
    congrArg Bundle.PrimaryBlock hC
  have hcbs : b.CanonicalBlocks.map calculateCRCCanonical = b.CanonicalBlocks :=
    congrArg Bundle.CanonicalBlocks hC
  unfold Bundle.CheckCRC
  rw [Bool.and_eq_true]
  refine ⟨checkCRCPrimary_of_calculate _ hp, ?_⟩
  rw [List.all_eq_true]
  intro cb hcb
  exact checkCRCCanonical_of_calculate cb (map_eq_self_mem hcbs cb hcb)

theorem decodeStage_roundtrip (b : Bundle) (hWF : WFBundle b) (hC : b.CalculateCRC = b) :
    decodeStage b.ToCbor = .ok b := by
  obtain ⟨hwf1, hwf2, hwf3, hwf4⟩ := hWF
  have hp : calculateCRCPrimary b.PrimaryBlock = b.PrimaryBlock :=
    congrArg Bundle.PrimaryBlock hC
  have hcbs : b.CanonicalBlocks.map calculateCRCCanonical = b.CanonicalBlocks :=
    congrArg Bundle.CanonicalBlocks hC
  show (do
      let pb ← decodePrimaryBlock (encodePrimaryBlock b.PrimaryBlock)
      let cbs ← decodeCanonicals (b.CanonicalBlocks.map encodeCanonicalBlock)
      Except.ok (⟨pb, cbs⟩ : Bundle)) = .ok b
  rw [primary_codec_roundtrip b.PrimaryBlock hwf1 hwf2 hwf3 hwf4
      (crc_zero_primary _ hp),
    decodeCanonicals_roundtrip b.CanonicalBlocks
      (fun cb hcb => crc_zero_canonical cb (map_eq_self_mem hcbs cb hcb))]
  rfl

/-! ## C1 — bundle wire round trip -/

/-- C1: for every well-formed Bundle that passes `checkValid` and whose CRC
values have been computed (`CalculateCRC` is a fixpoint), decoding the
encoding yields the same Bundle with no error, and the integrity check on the
(identical) decoded result succeeds. -/
theorem claim1_bundle_roundtrip (b : Bundle) (hWF : WFBundle b)
    (hV : b.checkValidE = .ok []) (hC : b.CalculateCRC = b) :
    NewBundleFromCbor b.ToCbor = (b, []) ∧ b.CheckCRC = true := by
  have hCheck : b.CheckCRC = true := bundle_checkCRC_of_calculate b hC
  have hdec : decodeStage b.ToCbor = .ok b := decodeStage_roundtrip b hWF hC
  refine ⟨?_, hCheck⟩
  unfold NewBundleFromCbor
  simp only [hdec]
  simp only [hV]
  simp [hCheck]

/-- C1, witness: the concrete valid bundle `bW` (payload block, 16-bit CRC
mode, CRCs computed) decodes from its own encoding with no error. -/
theorem claim1_witness :
    WFBundle bW ∧ Bundle.checkValidE bW = .ok [] ∧ Bundle.CalculateCRC bW = bW ∧
      (NewBundleFromCbor bW.ToCbor = (bW, []) ∧ bW.CheckCRC = true) :=
  ⟨by decide, by rfl, by rfl, claim1_bundle_roundtrip bW (by decide) (by rfl) (by rfl)⟩

/-! ## C6 — decoding never aborts -/

/-- C6: `NewBundleFromCbor` is a total function into a `(Bundle, error)`
result — every input, including one that is not a decodable CBOR item at all,
yields a result value rather than an abort. The error component is empty
exactly when the structural decode, the validation and the CRC check all
succeed; whenever the decode or a validation step panics internally, the
recovered panic is returned as the error with the bundle decoded so far. -/
theorem claim6_decode_returns_error_result (d : WireData) :
    ((NewBundleFromCbor d).2 = [] ↔
      ∃ b, decodeStage d = .ok b ∧ b.checkValidE = .ok [] ∧ b.CheckCRC = true) ∧
    (∀ p, decodeStage d = .error p →
      NewBundleFromCbor d = (emptyBundle, [decodePanicError p])) ∧
    (∀ b p, decodeStage d = .ok b → b.checkValidE = .error p →
      NewBundleFromCbor d = (b, [decodePanicError p])) := by
  refine ⟨?_, ?_, ?_⟩
  · unfold NewBundleFromCbor
    cases hd : decodeStage d with
    | error p => simp [hd]
    | ok b =>
      cases hv : b.checkValidE with
      | error p => simp [hv]
      | ok errs =>
        by_cases hc : b.CheckCRC = true
        · simp [hv, hc]
        · simp [hv, hc]
  · intro p hp
    unfold NewBundleFromCbor
    simp only [hp]
  · intro b p hb hp
    unfold NewBundleFromCbor
    simp only [hb, hp]

end DTN7
